import Mathlib

/-!
Verification development for the castro script-engine sources.

The Go sources embedded here are `src/app/lua/state.go` (compiled-proto
registry, interpreter-state pool, extension resolution) and the player
host-object bridge (`PlayerConstructor` and the bound player methods).

Modelling conventions:
- Go maps (`map[string]...`) become association lists `List (String × _)`
  with `mapGet`/`mapSet`; absent keys read as the zero value where the Go
  code relies on that (`(mapGet m k).getD []`).
- Go string functions (`strings.ToLower`, `strings.Replace`, ...) are
  re-defined over `List Char` so that all definitions evaluate inside the
  kernel; paths and identifiers in this code base are ASCII, for which the
  character-wise definitions agree with the Go functions.
- External effects (the filesystem walk, `CompileLua`, `glua` state
  creation plus `DoFile`, the database) are parameters of the embedded
  functions, so every theorem quantifies over their behaviour.
- Errors are plain `String` messages, matching the Go `error` values the
  code builds from message strings.
-/

/-- Model of `strings.ToLower` (ASCII range, which covers every path and
identifier this code handles). -/
def goToLower (s : String) : String :=
  String.mk (s.data.map Char.toLower)

/-- Model of `strings.HasSuffix`. -/
def goHasSuffix (s suf : String) : Bool :=
  s.data.drop (s.data.length - suf.data.length) == suf.data

/-- Model of `strings.TrimSuffix`: drop the suffix when present, otherwise
return the string unchanged. -/
def goTrimSuffix (s suf : String) : String :=
  if goHasSuffix s suf then String.mk (s.data.take (s.data.length - suf.data.length))
  else s

/-- Fuelled worker for `goReplace`.  Each step either copies one character
or consumes a whole (non-empty) occurrence of the pattern, so fuel equal to
the length of the input suffices; the fuel-exhausted branch is never
reached for the initial fuel supplied by `goReplace`. -/
def goReplaceAux (p r : List Char) : Nat → List Char → List Char
  | _, [] => []
  | 0, s => s
  | fuel + 1, c :: rest =>
    if p.isPrefixOf (c :: rest) then
      r ++ goReplaceAux p r fuel (List.drop (p.length - 1) rest)
    else c :: goReplaceAux p r fuel rest

/-- Model of `strings.Replace(s, old, new, -1)`: replace every
non-overlapping occurrence of `old` left to right.  The embedded code only
calls it with non-empty `old` (a directory prefix), so the empty-pattern
case just returns the string. -/
def goReplace (s old new : String) : String :=
  if old.data.isEmpty then s
  else String.mk (goReplaceAux old.data new.data s.data.length s.data)

/-- Model of the file-name half of `filepath.Split`: everything after the
final separator. -/
def goFileName (s : String) : String :=
  String.mk (s.data.foldl (fun acc c => if c == '/' then [] else acc ++ [c]) [])

/-- Lookup in an association list keyed by exact string equality, the model
of a Go map read. -/
def mapGet {α : Type} : List (String × α) → String → Option α
  | [], _ => none
  | e :: es, k => if e.1 == k then some e.2 else mapGet es k

/-- Update or insert in an association list, the model of a Go map write. -/
def mapSet {α : Type} (m : List (String × α)) (k : String) (v : α) :
    List (String × α) :=
  match m with
  | [] => [(k, v)]
  | e :: es => if e.1 == k then (k, v) :: es else e :: mapSet es k v

/-- Model of one live `glua.LState`.  Only the identity of the instance and
the `DatabaseTransactionStatusFieldName` field on its database metatable are
relevant to the embedded code, so the state is projected to those. -/
structure LuaState where
  id : Nat
  dbTransactionStatus : Bool
deriving DecidableEq, Repr

/-- Model of a compiled `glua.FunctionProto`, identified opaquely. -/
structure FunctionProto where
  id : Nat
deriving DecidableEq, Repr

/-- Pool map type: virtual path to stack of idle interpreter states,
modelling `map[string][]*glua.LState`. -/
abbrev PoolMap := List (String × List LuaState)

/-- Registry map type: virtual path to compiled proto, modelling
`map[string]*glua.FunctionProto`. -/
abbrev ProtoMap := List (String × FunctionProto)

/-- Model of `stateList` from state.go.  The mutex is elided (each embedded
method is a single atomic step on the structure); `stype` is the Go `Type`
field (`Type` is a Lean keyword). -/
structure stateList where
  List : PoolMap
  stype : String
deriving DecidableEq, Repr

/-- Model of `compiledStateList` from state.go. -/
structure compiledStateList where
  List : ProtoMap
  stype : String
deriving DecidableEq, Repr

/-- Embedding of `stateList.Get`.  `env` models the cold-start sequence
`glua.NewState()`, `GetApplicationState`, `state.DoFile(path)` on the
lowercased path: it yields the freshly initialised state or the
compile/execution error.  On a pool hit the last state of the bucket is
popped, exactly as `s.List[path][len-1]` with truncation. -/
def stateList.Get (env : String → Except String LuaState) (s : stateList)
    (path : String) : Except String (LuaState × stateList) :=
  let p := goToLower path
  let bucket := (mapGet s.List p).getD []
  match bucket.getLast? with
  | none =>
    match env p with
    | .error e => .error e
    | .ok state => .ok (state, s)
  | some x => .ok (x, { s with List := mapSet s.List p bucket.dropLast })

/-- Embedding of `stateList.Put`: lowercase the path, clear the database
transaction status field on the instance, append it to the path's stack. -/
def stateList.Put (s : stateList) (state : LuaState) (path : String) :
    stateList :=
  let p := goToLower path
  let cleared := { state with dbTransactionStatus := false }
  { s with List := mapSet s.List p ((mapGet s.List p).getD [] ++ [cleared]) }

/-- Embedding of `compiledStateList.Get`: lowercase the query path and scan
the registry for a stored key whose lowercasing matches. -/
def compiledStateList.Get (s : compiledStateList) (path : String) :
    Except String FunctionProto :=
  let p := goToLower path
  match s.List.find? (fun e => goToLower e.1 == p) with
  | some e => .ok e.2
  | none => .error "Compiled lua proto not found"

/-- Model of one entry seen by `filepath.Walk`: its full path, base name,
directory flag and the walk-supplied access error. -/
structure WalkEntry where
  path : String
  name : String
  isDir : Bool
  err : Option String
deriving DecidableEq, Repr

/-- Walked-entry list alias, usable inside the `compiledStateList`
namespace where the bare name `List` denotes the structure field. -/
abbrev WalkEntries := List WalkEntry

/-- Embedding of the `filepath.Walk` closure of
`compiledStateList.CompileFiles`: fold the walked entries into a fresh map,
aborting on the first walk error or `CompileLua` failure.  `compile` models
`CompileLua`. -/
def compileWalk (compile : String → Except String FunctionProto) :
    List WalkEntry → ProtoMap → Except String ProtoMap
  | [], acc => .ok acc
  | f :: fs, acc =>
    match f.err with
    | some e => .error e
    | none =>
      if f.isDir then compileWalk compile fs acc
      else if goHasSuffix f.name ".lua" then
        match compile f.path with
        | .error e => .error e
        | .ok proto => compileWalk compile fs (mapSet acc f.path proto)
      else compileWalk compile fs acc

/-- Embedding of `compiledStateList.CompileFiles`: build the fresh `files`
map over the walk; on error return it with the receiver untouched, on
success replace `s.List` wholesale. -/
def compiledStateList.CompileFiles
    (compile : String → Except String FunctionProto) (s : compiledStateList)
    (entries : WalkEntries) : Option String × compiledStateList :=
  match compileWalk compile entries [] with
  | .error e => (some e, s)
  | .ok files => (none, { s with List := files })

/-- Model of one extension row produced by the `castro_extension_<type>`
query inside `CompileExtensions`: the scanned extension id together with
the entries `filepath.Walk` yields under its directory.  A whole row is
`Except`-wrapped to model a `rows.Scan` failure. -/
structure ExtRow where
  id : String
  entries : List WalkEntry
deriving DecidableEq, Repr

/-- Extension-row list alias, usable inside the `compiledStateList`
namespace. -/
abbrev ExtRows := List (Except String ExtRow)

/-- Embedding of the per-extension `filepath.Walk` closure of
`compiledStateList.CompileExtensions`: unlike `compileWalk`, each compiled
proto is written into the live registry immediately, under the lowercased
virtual path obtained by substituting the directory prefix with the
extension type. -/
def compileExtFiles (compile : String → Except String FunctionProto)
    (extType dir : String) :
    List WalkEntry → ProtoMap → Option String × ProtoMap
  | [], reg => (none, reg)
  | f :: fs, reg =>
    match f.err with
    | some e => (some e, reg)
    | none =>
      if f.isDir then compileExtFiles compile extType dir fs reg
      else if goHasSuffix f.name ".lua" then
        match compile f.path with
        | .error e => (some e, reg)
        | .ok proto =>
          compileExtFiles compile extType dir fs
            (mapSet reg (goToLower (goReplace f.path dir extType)) proto)
      else compileExtFiles compile extType dir fs reg

/-- Embedding of the row loop of `compiledStateList.CompileExtensions`. -/
def compileExtList (compile : String → Except String FunctionProto)
    (extType : String) :
    List (Except String ExtRow) → ProtoMap → Option String × ProtoMap
  | [], reg => (none, reg)
  | row :: rest, reg =>
    match row with
    | .error e => (some e, reg)
    | .ok ext =>
      match compileExtFiles compile extType
          ("extensions/" ++ ext.id ++ "/" ++ extType) ext.entries reg with
      | (some e, reg₂) => (some e, reg₂)
      | (none, reg₂) => compileExtList compile extType rest reg₂

/-- Embedding of `compiledStateList.CompileExtensions`.  `rowsRes` models
the outcome of the enabled-extension query; the registry is mutated in
place as the rows are processed. -/
def compiledStateList.CompileExtensions
    (compile : String → Except String FunctionProto) (extType : String)
    (rowsRes : Except String ExtRows)
    (s : compiledStateList) : Option String × compiledStateList :=
  match rowsRes with
  | .error e => (some e, s)
  | .ok rows =>
    match compileExtList compile extType rows s.List with
    | (r, reg) => (r, { s with List := reg })

/-- Model of an `os.Stat` failure, keeping only the `os.IsNotExist`
distinction the code inspects. -/
inductive StatErr
  | notExist
  | other
deriving DecidableEq, Repr

/-- Test used by the embedded code for `os.IsNotExist`. -/
def StatErr.isNotExist : StatErr → Bool
  | .notExist => true
  | .other => false

/-- Environment of `stateList.LoadExtensions`: `stat` models `os.Stat` on a
directory (`none` means it exists), `getLuaFiles` models
`util.GetLuaFiles`, and `doFile` models creating a fresh state with the
castro metatables and running `state.DoFile(subtopic)` (`none` means
success). -/
structure FsEnv where
  stat : String → Option StatErr
  getLuaFiles : String → Except String (List String)
  doFile : String → Option String

/-- Scanned-row list alias (each row is the `rows.Scan` outcome for one
extension id), usable inside the `stateList` namespace. -/
abbrev IdRows := List (Except String String)

/-- Widget-identifier list alias, usable inside the `stateList`
namespace. -/
abbrev Widgets := List String

/-- Modelled from the spec: `util.Widgets.UnloadExtensionWidget` (the
`util` package is not among the embedded sources) removes the widget with
the given identifier from the externally visible active widget list. -/
def UnloadExtensionWidget (ws : List String) (name : String) : List String :=
  ws.filter (fun w => w != name)

/-- Result of a `LoadExtensions` call: the returned error, the rebuilt pool
map, the active widget list and the log lines emitted. -/
structure LoadOut where
  err : Option String
  list : PoolMap
  widgets : List String
  logs : List String
deriving DecidableEq, Repr

/-- Embedding of the subtopic loop of `stateList.LoadExtensions`.  The
`Nat` argument counts `glua.NewState()` calls and numbers the created
instances.  A widget `DoFile` failure logs, unloads the widget named by the
file and continues; any other type's failure aborts with the extension id
prefixed to the error. -/
def loadSubtopics (env : FsEnv) (extType extensionID dir : String) :
    List String → PoolMap → List String → List String → Nat →
    Option String × PoolMap × List String × List String × Nat
  | [], list, ws, logs, cnt => (none, list, ws, logs, cnt)
  | subtopic :: rest, list, ws, logs, cnt =>
    match env.doFile subtopic with
    | some e =>
      if extType == "widgets" then
        loadSubtopics env extType extensionID dir rest list
          (UnloadExtensionWidget ws (goTrimSuffix (goFileName subtopic) ".lua"))
          (logs ++ ["Cannot load widgets in extension: " ++ extensionID ++ " " ++ e])
          (cnt + 1)
      else (some ("extension: " ++ extensionID ++ " " ++ e), list, ws, logs, cnt + 1)
    | none =>
      loadSubtopics env extType extensionID dir rest
        (mapSet list (goToLower (goReplace subtopic dir extType))
          ((mapGet list (goToLower (goReplace subtopic dir extType))).getD [] ++
            [⟨cnt, false⟩]))
        ws logs (cnt + 1)

/-- Embedding of the row loop of `stateList.LoadExtensions`: per extension,
a missing directory logs (when `os.IsNotExist`) and skips the extension;
a `GetLuaFiles` failure aborts; otherwise the subtopics are loaded. -/
def loadExtRows (env : FsEnv) (extType : String) :
    List (Except String String) → PoolMap → List String → List String →
    Nat → LoadOut
  | [], list, ws, logs, _ => { err := none, list := list, widgets := ws, logs := logs }
  | row :: rest, list, ws, logs, cnt =>
    match row with
    | .error e => { err := some e, list := list, widgets := ws, logs := logs }
    | .ok extensionID =>
      match env.stat ("extensions/" ++ extensionID ++ "/" ++ extType) with
      | some statErr =>
        loadExtRows env extType rest list ws
          (if statErr.isNotExist then
            logs ++ ["Missing " ++ extType ++ " directory in extension " ++ extensionID]
          else logs) cnt
      | none =>
        match env.getLuaFiles ("extensions/" ++ extensionID ++ "/" ++ extType) with
        | .error e => { err := some e, list := list, widgets := ws, logs := logs }
        | .ok subtopics =>
          match loadSubtopics env extType extensionID
              ("extensions/" ++ extensionID ++ "/" ++ extType)
              subtopics list ws logs cnt with
          | (some e, list₂, ws₂, logs₂, _) =>
            { err := some e, list := list₂, widgets := ws₂, logs := logs₂ }
          | (none, list₂, ws₂, logs₂, cnt₂) =>
            loadExtRows env extType rest list₂ ws₂ logs₂ cnt₂

/-- Embedding of `stateList.LoadExtensions`: reset the pool map, query the
enabled extensions of `s.Type + "s"`, and process each row.  `rowsRes`
models the query outcome; each row is `Except`-wrapped to model a
`rows.Scan` failure; `widgets0` is the active widget list before the
call. -/
def stateList.LoadExtensions (env : FsEnv)
    (rowsRes : Except String IdRows)
    (widgets0 : Widgets) (s : stateList) : LoadOut :=
  match rowsRes with
  | .error e => { err := some e, list := [], widgets := widgets0, logs := [] }
  | .ok rows => loadExtRows env (s.stype ++ "s") rows [] widgets0 [] 0

/-- Concrete filesystem environment exercising the widget branch of
extension loading: two widget scripts, the first of which fails to load. -/
def wEnvWidget : FsEnv :=
  { stat := fun _ => none,
    getLuaFiles := fun _ =>
      .ok ["extensions/news/widgets/latest.lua", "extensions/news/widgets/poll.lua"],
    doFile := fun f =>
      if f == "extensions/news/widgets/latest.lua" then some "nil index" else none }

/-- Concrete filesystem environment exercising the page branch of extension
loading: a single page script that fails to load. -/
def wEnvPage : FsEnv :=
  { stat := fun _ => none,
    getLuaFiles := fun _ => .ok ["extensions/shop/pages/buy.lua"],
    doFile := fun _ => some "boom" }

/-- Concrete filesystem environment where only one extension directory
exists and every script loads. -/
def wEnvMissing : FsEnv :=
  { stat := fun d => if d == "extensions/blog/pages" then none else some .notExist,
    getLuaFiles := fun _ => .ok ["extensions/blog/pages/list.lua"],
    doFile := fun _ => none }

/-- Model of a `glua.LValue` as far as the player bridge inspects it. -/
inductive LuaV
  | nil
  | bool (b : Bool)
  | num (n : Int)
  | str (s : String)
  | table
deriving DecidableEq, Repr

/-- Test for `v.Type() == lua.LTNumber`. -/
def LuaV.isNumber : LuaV → Bool
  | .num _ => true
  | _ => false

/-- Decimal digit-string parser used by the number-coercion model. -/
def goParseNat (cs : List Char) : Option Nat :=
  if cs.isEmpty then none
  else if cs.all (fun c => c.isDigit) then
    some (cs.foldl (fun n c => n * 10 + (c.toNat - 48)) 0)
  else none

/-- Integer-literal fragment of gopher-lua number parsing, enough for the
string branch of `ToInt`. -/
def goParseNumber (s : String) : Option Int :=
  match s.data with
  | '-' :: rest => (goParseNat rest).map (fun n => -(n : Int))
  | cs => (goParseNat cs).map (fun n => (n : Int))

/-- Model of gopher-lua `LState.ToInt`: numbers convert directly, strings
convert when they parse as a number, and every other value silently
converts to 0.  Lua numbers are modelled as integers. -/
def LuaV.toInt : LuaV → Int
  | .num n => n
  | .str s => (goParseNumber s).getD 0
  | _ => 0

/-- Model of the gopher-lua `LValue.String()` conversion used for the bound
update parameter of `SetPlayerCustomField` (table addresses are collapsed
to a constant, which no theorem depends on). -/
def LuaV.goString : LuaV → String
  | .nil => "nil"
  | .bool true => "true"
  | .bool false => "false"
  | .num n => toString n
  | .str s => s
  | .table => "table"

/-- Projection of `models.Player` to the field the embedded methods read
directly (`player.ID`). -/
structure Player where
  id : Int
deriving DecidableEq, Repr

/-- Model of the dynamic `interface{}` argument of
`playerTableConstructor`, with the two kinds the callers produce plus a
catch-all for every other dynamic type. -/
inductive GoVal
  | int64 (n : Int)
  | string (s : String)
  | other
deriving DecidableEq, Repr

/-- Embedding of `playerTableConstructor`.  `byId` and `byName` model
`models.GetPlayerByID` and `models.GetPlayerByName`: they yield either the
loaded entity or an error (the data layer's not-found and access failures
are both just error values here, as nothing downstream distinguishes
them). -/
def playerTableConstructor (byId : Int → Except String Player)
    (byName : String → Except String Player) : GoVal → Except String Player
  | .int64 n => byId n
  | .string s => byName s
  | .other => .error "Invalid player name or id"

/-- Result of `PlayerConstructor` as a script observes it: either the nil
value or a player metatable whose `__player` user-data holds the backing
entity reference (`none` models a nil `*models.Player` pointer). -/
inductive BindResult
  | nil
  | handle (backing : Option Player)
deriving DecidableEq, Repr

/-- Embedding of `createPlayerMetaTable` restricted to what the claims
observe: the `__player` user-data value. -/
def createPlayerMetaTable (player : Option Player) : BindResult :=
  .handle player

/-- Embedding of `PlayerConstructor`: a numeric first argument looks up by
id, a string one by name; a lookup error pushes nil; otherwise the
metatable built around whatever pointer the lookup left behind is pushed —
including the initial nil pointer when the argument is neither a number nor
a string, since then `err` is also still nil. -/
def PlayerConstructor (byId : Int → Except String Player)
    (byName : String → Except String Player) (v : LuaV) : BindResult :=
  match v with
  | .num n =>
    match playerTableConstructor byId byName (.int64 n) with
    | .error _ => .nil
    | .ok p => createPlayerMetaTable (some p)
  | .str s =>
    match playerTableConstructor byId byName (.string s) with
    | .error _ => .nil
    | .ok p => createPlayerMetaTable (some p)
  | _ => createPlayerMetaTable none

/-- Database and entity operations a bound player method can perform, as
observable effects. -/
inductive HostCall
  | selectColumns
  | execUpdate (col : String) (value : String) (playerId : Int)
  | selectPlayerById (playerId : Int)
  | selectField (col : String) (playerId : Int)
  | setStorage (key value : Int)
  | getStorage (key : Int)
  | setBalance (value : Int)
deriving DecidableEq, Repr

/-- Outcome of one bound-method invocation: the host calls it performed, an
`L.ArgError` if it raised one (argument index and message), an
`L.RaiseError` message if any, and the values pushed for the script. -/
structure MethodResult where
  calls : List HostCall
  argError : Option (Nat × String)
  raised : Option String
  pushed : List LuaV
deriving DecidableEq, Repr

/-- Model of the player storage row (`StructToTable(storage)` is pushed as
an opaque table). -/
structure Storage where
  key : Int
  value : Int
deriving DecidableEq, Repr

/-- Model of Go `html.EscapeString` on one character. -/
def escapeChar (c : Char) : String :=
  if c == '&' then "&amp;"
  else if c == Char.ofNat 39 then "&#39;"
  else if c == '<' then "&lt;"
  else if c == '>' then "&gt;"
  else if c == Char.ofNat 34 then "&#34;"
  else String.mk [c]

/-- Model of Go `html.EscapeString`. -/
def htmlEscapeString (s : String) : String :=
  String.mk (s.data.foldr (fun c acc => (escapeChar c).data ++ acc) [])

/-- Embedding of `SetPlayerStorageValue`: both the key and the value must
be Lua numbers, checked before use; `setRes` models
`player.SetStorageValue`. -/
def SetPlayerStorageValue (key val : LuaV)
    (setRes : Int → Int → Except String Unit) : MethodResult :=
  if !key.isNumber then
    { calls := [], argError := some (1, "Invalid key type. Expected number"),
      raised := none, pushed := [] }
  else if !val.isNumber then
    { calls := [], argError := some (1, "Invalid value type. Expected number"),
      raised := none, pushed := [] }
  else
    match setRes key.toInt val.toInt with
    | .error e =>
      { calls := [.setStorage key.toInt val.toInt], argError := none,
        raised := some ("Unable to set player storage value: " ++ e), pushed := [] }
    | .ok _ =>
      { calls := [.setStorage key.toInt val.toInt], argError := none,
        raised := none, pushed := [] }

/-- Embedding of `GetPlayerStorageValue`: the key must be a Lua number,
checked before use; `getRes` models `player.GetStorageValue`. -/
def GetPlayerStorageValue (key : LuaV)
    (getRes : Int → Except String Storage) : MethodResult :=
  if !key.isNumber then
    { calls := [], argError := some (1, "Invalid key type. Expected number"),
      raised := none, pushed := [] }
  else
    match getRes key.toInt with
    | .error e =>
      { calls := [.getStorage key.toInt], argError := none,
        raised := some ("Unable to get player storage value (" ++ key.goString ++ ") " ++ e),
        pushed := [] }
    | .ok _ =>
      { calls := [.getStorage key.toInt], argError := none, raised := none,
        pushed := [.table] }

/-- Embedding of `SetPlayerBankBalance`: the argument is converted with
`L.ToInt(2)` — with no preceding type check — and handed to
`player.SetBalance` (modelled by `setRes`); the Go error message carries a
literal unfilled `%v` verb because the call site passes no argument. -/
def SetPlayerBankBalance (v : LuaV)
    (setRes : Int → Except String Unit) : MethodResult :=
  match setRes v.toInt with
  | .error _ =>
    { calls := [.setBalance v.toInt], argError := none,
      raised := some "Cannot update player balance: %v", pushed := [] }
  | .ok _ =>
    { calls := [.setBalance v.toInt], argError := none, raised := none,
      pushed := [] }

/-- Embedding of `SetPlayerCustomField`: fetch the live column catalog of
the `players` table (`catalogRes`); if the requested field name is found
among the columns, interpolate its HTML-escaped form into the UPDATE,
re-fetch the player (`refetch`) and refresh the metatable; otherwise fall
through and do nothing. -/
def SetPlayerCustomField (catalogRes : Except String (List String))
    (execRes : Except String Unit) (refetch : Except String Player)
    (player : Player) (fieldName : String) (fieldValue : LuaV) : MethodResult :=
  match catalogRes with
  | .error e =>
    { calls := [.selectColumns], argError := none,
      raised := some ("Cannot get list of column names from information_schema: " ++ e),
      pushed := [] }
  | .ok nameList =>
    match nameList.find? (fun c => c == fieldName) with
    | none =>
      { calls := [.selectColumns], argError := none, raised := none, pushed := [] }
    | some _ =>
      match execRes with
      | .error e =>
        { calls := [.selectColumns,
            .execUpdate (htmlEscapeString fieldName) fieldValue.goString player.id],
          argError := none,
          raised := some ("Cannot set custom field " ++ fieldName ++ ": " ++ e),
          pushed := [] }
      | .ok _ =>
        match refetch with
        | .error e =>
          { calls := [.selectColumns,
              .execUpdate (htmlEscapeString fieldName) fieldValue.goString player.id,
              .selectPlayerById player.id],
            argError := none,
            raised := some ("Cannot update player metatable: " ++ e), pushed := [] }
        | .ok _ =>
          { calls := [.selectColumns,
              .execUpdate (htmlEscapeString fieldName) fieldValue.goString player.id,
              .selectPlayerById player.id],
            argError := none, raised := none, pushed := [] }

/-- Embedding of `GetPlayerCustomField`: fetch the live column catalog; if
the field name is found, SELECT that column (HTML-escaped) for the player
and push the value as a string; otherwise push nil without touching the
column. -/
def GetPlayerCustomField (catalogRes : Except String (List String))
    (getRes : Except String String) (player : Player)
    (fieldName : String) : MethodResult :=
  match catalogRes with
  | .error e =>
    { calls := [.selectColumns], argError := none,
      raised := some ("Cannot get list of column names from information_schema: " ++ e),
      pushed := [] }
  | .ok nameList =>
    match nameList.find? (fun c => c == fieldName) with
    | some _ =>
      match getRes with
      | .error e =>
        { calls := [.selectColumns, .selectField (htmlEscapeString fieldName) player.id],
          argError := none,
          raised := some ("Cannot get custom field " ++ fieldName ++ ": " ++ e),
          pushed := [] }
      | .ok v =>
        { calls := [.selectColumns, .selectField (htmlEscapeString fieldName) player.id],
          argError := none, raised := none, pushed := [.str v] }
    | none =>
      { calls := [.selectColumns], argError := none, raised := none, pushed := [.nil] }

theorem mapGet_mapSet_self {α : Type} (m : List (String × α)) (k : String)
    (v : α) : mapGet (mapSet m k v) k = some v := by
  induction m with
  | nil => simp [mapSet, mapGet]
  | cons e es ih =>
    by_cases h : e.1 = k
    · simp [mapSet, h, mapGet]
    · simp [mapSet, h, mapGet, ih]

theorem mapGet_mapSet_ne {α : Type} (m : List (String × α)) (k k' : String)
    (v : α) (h : k' ≠ k) : mapGet (mapSet m k v) k' = mapGet m k' := by
  induction m with
  | nil => simp [mapSet, mapGet, Ne.symm h]
  | cons e es ih =>
    by_cases he : e.1 = k
    · simp [mapSet, he, mapGet, Ne.symm h]
    · simp [mapSet, he, mapGet, ih]

theorem mapGet_mapSet_isSome {α : Type} (m : List (String × α))
    (k k' : String) (v : α) (h : (mapGet m k').isSome) :
    (mapGet (mapSet m k v) k').isSome := by
  by_cases hk : k' = k
  · subst hk; simp [mapGet_mapSet_self]
  · rwa [mapGet_mapSet_ne m k k' v hk]

/-- C1: for every path, a checkout that succeeds, followed immediately by a
checkin of the returned instance, followed by another checkout of the same
path, succeeds and returns exactly the checked-in instance (same identity;
its transaction marker was cleared by checkin).  The second checkout pops
the most recently pushed instance of that path's stack, so no instance is
lost across a checkout/checkin cycle. -/
theorem checkout_checkin_checkout_returns_instance
    (env : String → Except String LuaState) (s : stateList) (path : String)
    (st : LuaState) (s₁ : stateList)
    (h : stateList.Get env s path = .ok (st, s₁)) :
    ∃ s₂, stateList.Get env (stateList.Put s₁ st path) path =
      .ok ({ st with dbTransactionStatus := false }, s₂) ∧
      ({ st with dbTransactionStatus := false } : LuaState).id = st.id := by
  simp only [stateList.Get, stateList.Put, mapGet_mapSet_self, Option.getD_some,
    List.getLast?_concat, List.dropLast_concat]
  exact ⟨_, rfl, trivial⟩

/-- Witness for C1 at a concrete pool and environment. -/
theorem checkout_checkin_checkout_returns_instance_witness :
    ∃ s₂, stateList.Get (fun _ => .ok ⟨7, true⟩) (stateList.Put ⟨[], "page"⟩
        ⟨7, true⟩ "pages/index.lua") "pages/index.lua" =
      .ok (⟨7, false⟩, s₂) ∧ (⟨7, false⟩ : LuaState).id = 7 := by
  exact checkout_checkin_checkout_returns_instance (fun _ => .ok ⟨7, true⟩)
    ⟨[], "page"⟩ "pages/index.lua" ⟨7, true⟩ ⟨[], "page"⟩ rfl

/-- C3: after `Put` returns, the instance stored at the top of the path's
stack is the checked-in instance with its database transaction marker set
to false, whatever the marker's value was before the call. -/
theorem checkin_clears_transaction_marker (s : stateList) (st : LuaState)
    (path : String) :
    ∃ bucket st₂, mapGet (stateList.Put s st path).List (goToLower path) =
        some bucket ∧
      bucket.getLast? = some st₂ ∧ st₂.id = st.id ∧
      st₂.dbTransactionStatus = false := by
  refine ⟨(mapGet s.List (goToLower path)).getD [] ++
    [{ st with dbTransactionStatus := false }],
    { st with dbTransactionStatus := false }, ?_, ?_, rfl, rfl⟩
  · simp [stateList.Put, mapGet_mapSet_self]
  · exact List.getLast?_concat _

/-- C2: path lookups are case-insensitive.  Two paths with the same
lowercasing hit the same pool bucket in `stateList.Get` and
`stateList.Put`, and `compiledStateList.Get` answers them identically;
moreover a registry entry stored under any casing of the path is found. -/
theorem path_lookup_case_insensitive (p₁ p₂ : String)
    (h : goToLower p₁ = goToLower p₂) :
    (∀ env s, stateList.Get env s p₁ = stateList.Get env s p₂)
    ∧ (∀ s st, stateList.Put s st p₁ = stateList.Put s st p₂)
    ∧ (∀ cs, compiledStateList.Get cs p₁ = compiledStateList.Get cs p₂)
    ∧ (∀ K proto stype, goToLower K = goToLower p₁ →
        compiledStateList.Get ⟨[(K, proto)], stype⟩ p₁ = .ok proto) := by
  refine ⟨fun env s => ?_, fun s st => ?_, fun cs => ?_,
    fun K proto stype hK => ?_⟩
  · simp only [stateList.Get, h]
  · simp only [stateList.Put, h]
  · simp only [compiledStateList.Get, h]
  · have hb : (goToLower K == goToLower p₁) = true := by simp [hK]
    simp [compiledStateList.Get, List.find?, hb]

/-- Witness for C2 on the spec's example pair of paths. -/
theorem path_lookup_case_insensitive_witness :
    stateList.Put ⟨[], "page"⟩ ⟨3, true⟩ "Pages/Index.lua" =
      stateList.Put ⟨[], "page"⟩ ⟨3, true⟩ "pages/index.lua"
    ∧ compiledStateList.Get ⟨[("Pages/Index.lua", ⟨5⟩)], "page"⟩
        "pages/index.lua" = .ok ⟨5⟩ := by
  have h : goToLower "Pages/Index.lua" = goToLower "pages/index.lua" := by decide
  exact ⟨(path_lookup_case_insensitive _ _ h).2.1 ⟨[], "page"⟩ ⟨3, true⟩,
    (path_lookup_case_insensitive "pages/index.lua" "pages/index.lua" rfl).2.2.2
      "Pages/Index.lua" ⟨5⟩ "page" (by decide)⟩

theorem compileWalk_error_of_failing
    (compile : String → Except String FunctionProto) (f : WalkEntry) :
    ∀ (entries : List WalkEntry) (acc : ProtoMap), f ∈ entries →
    f.isDir = false → goHasSuffix f.name ".lua" = true →
    (∃ e, compile f.path = .error e) →
    ∃ e, compileWalk compile entries acc = .error e := by
  intro entries
  induction entries with
  | nil => intro acc hmem _ _ _; simp at hmem
  | cons g gs ih =>
    intro acc hmem hdir hsuf herr
    rcases List.mem_cons.mp hmem with hfg | hmem₂
    · subst hfg
      cases hfe : f.err with
      | some e => exact ⟨e, by simp [compileWalk, hfe]⟩
      | none =>
        obtain ⟨e, he⟩ := herr
        exact ⟨e, by simp [compileWalk, hfe, hdir, hsuf, he]⟩
    · cases hge : g.err with
      | some e => exact ⟨e, by simp [compileWalk, hge]⟩
      | none =>
        by_cases hgd : g.isDir
        · obtain ⟨e, hrec⟩ := ih acc hmem₂ hdir hsuf herr
          exact ⟨e, by simp [compileWalk, hge, hgd, hrec]⟩
        · by_cases hgs : goHasSuffix g.name ".lua"
          · cases hc : compile g.path with
            | error e => exact ⟨e, by simp [compileWalk, hge, hgd, hgs, hc]⟩
            | ok proto =>
              obtain ⟨e, hrec⟩ := ih (mapSet acc g.path proto) hmem₂ hdir hsuf herr
              exact ⟨e, by simp [compileWalk, hge, hgd, hgs, hc, hrec]⟩
          · obtain ⟨e, hrec⟩ := ih acc hmem₂ hdir hsuf herr
            exact ⟨e, by simp [compileWalk, hge, hgd, hgs, hrec]⟩

/-- C4: primary-tree compilation is atomic.  If the walk fails the call
reports the error and the receiver is exactly as before; a failing `.lua`
file anywhere in the walk does make the call fail; and on success the
registry is replaced wholesale by the freshly built map. -/
theorem compileFiles_atomic (compile : String → Except String FunctionProto)
    (s : compiledStateList) (entries : WalkEntries) :
    ((compiledStateList.CompileFiles compile s entries).1.isSome →
      (compiledStateList.CompileFiles compile s entries).2 = s)
    ∧ ((∃ f ∈ entries, f.isDir = false ∧ goHasSuffix f.name ".lua" = true ∧
          ∃ e, compile f.path = .error e) →
        (compiledStateList.CompileFiles compile s entries).1.isSome)
    ∧ (∀ files, compileWalk compile entries [] = .ok files →
        compiledStateList.CompileFiles compile s entries =
          (none, { s with List := files })) := by
  refine ⟨?_, ?_, ?_⟩
  · intro hsome
    cases hw : compileWalk compile entries [] with
    | error e => simp [compiledStateList.CompileFiles, hw]
    | ok files => simp [compiledStateList.CompileFiles, hw] at hsome
  · rintro ⟨f, hmem, hdir, hsuf, herr⟩
    obtain ⟨e, hw⟩ :=
      compileWalk_error_of_failing compile f entries [] hmem hdir hsuf herr
    simp [compiledStateList.CompileFiles, hw]
  · intro files hw
    simp [compiledStateList.CompileFiles, hw]

/-- Witness for C4: one broken file, an existing registry entry kept. -/
theorem compileFiles_atomic_witness :
    (compiledStateList.CompileFiles (fun _ => .error "parse error")
      ⟨[("pages/index.lua", ⟨3⟩)], "page"⟩
      [⟨"pages/broken.lua", "broken.lua", false, none⟩]).1.isSome = true
    ∧ (compiledStateList.CompileFiles (fun _ => .error "parse error")
      ⟨[("pages/index.lua", ⟨3⟩)], "page"⟩
      [⟨"pages/broken.lua", "broken.lua", false, none⟩]).2 =
      ⟨[("pages/index.lua", ⟨3⟩)], "page"⟩ := by
  have T := compileFiles_atomic (fun _ => .error "parse error")
    ⟨[("pages/index.lua", ⟨3⟩)], "page"⟩
    [⟨"pages/broken.lua", "broken.lua", false, none⟩]
  have hs := T.2.1 ⟨⟨"pages/broken.lua", "broken.lua", false, none⟩,
    by decide, rfl, by decide, ⟨"parse error", rfl⟩⟩
  exact ⟨by simpa using hs, T.1 hs⟩

theorem compileExtFiles_mono (compile : String → Except String FunctionProto)
    (extType dir : String) :
    ∀ (fs : List WalkEntry) (reg : ProtoMap) (k : String),
    (mapGet reg k).isSome →
    (mapGet (compileExtFiles compile extType dir fs reg).2 k).isSome := by
  intro fs
  induction fs with
  | nil => intro reg k h; simpa [compileExtFiles] using h
  | cons f fs ih =>
    intro reg k h
    cases hfe : f.err with
    | some e => simpa [compileExtFiles, hfe] using h
    | none =>
      by_cases hd : f.isDir
      · simpa [compileExtFiles, hfe, hd] using ih reg k h
      · by_cases hs : goHasSuffix f.name ".lua"
        · cases hc : compile f.path with
          | error e => simpa [compileExtFiles, hfe, hd, hs, hc] using h
          | ok proto =>
            have h₂ := mapGet_mapSet_isSome reg
              (goToLower (goReplace f.path dir extType)) k proto h
            simpa [compileExtFiles, hfe, hd, hs, hc] using ih _ k h₂
        · simpa [compileExtFiles, hfe, hd, hs] using ih reg k h

theorem compileExtList_mono (compile : String → Except String FunctionProto)
    (extType : String) :
    ∀ (rows : ExtRows) (reg : ProtoMap) (k : String),
    (mapGet reg k).isSome →
    (mapGet (compileExtList compile extType rows reg).2 k).isSome := by
  intro rows
  induction rows with
  | nil => intro reg k h; simpa [compileExtList] using h
  | cons row rest ih =>
    intro reg k h
    cases row with
    | error e => simpa [compileExtList] using h
    | ok ext =>
      have h₂ := compileExtFiles_mono compile extType
        ("extensions/" ++ ext.id ++ "/" ++ extType) ext.entries reg k h
      cases hcf : compileExtFiles compile extType
          ("extensions/" ++ ext.id ++ "/" ++ extType) ext.entries reg with
      | mk r reg₂ =>
        rw [hcf] at h₂
        cases r with
        | none =>
          simpa [compileExtList, hcf] using ih reg₂ k h₂
        | some e =>
          simpa [compileExtList, hcf] using h₂

theorem compileExtList_append (compile : String → Except String FunctionProto)
    (extType : String) :
    ∀ (xs ys : ExtRows) (reg reg₁ : ProtoMap),
    compileExtList compile extType xs reg = (none, reg₁) →
    compileExtList compile extType (xs ++ ys) reg =
      compileExtList compile extType ys reg₁ := by
  intro xs
  induction xs with
  | nil =>
    intro ys reg reg₁ h
    have hr : reg = reg₁ := by simpa [compileExtList] using h
    subst hr
    simp
  | cons row rest ih =>
    intro ys reg reg₁ h
    cases row with
    | error e => simp [compileExtList] at h
    | ok ext =>
      cases hcf : compileExtFiles compile extType
          ("extensions/" ++ ext.id ++ "/" ++ extType) ext.entries reg with
      | mk r reg₂ =>
        cases r with
        | some e => simp [compileExtList, hcf] at h
        | none =>
          simp only [compileExtList, hcf] at h
          simpa [compileExtList, hcf] using ih ys reg₂ reg₁ h

/-- C10: extension compilation merges into the shared registry as it
proceeds.  If a prefix of the extension rows succeeds, producing registry
`reg₁`, and the remaining rows fail with error `e` leaving `reg₂`, then the
whole call returns that error with `reg₂` installed — and every entry
merged before the failure is still registered (keys of `reg₁` survive into
`reg₂`), in contrast to the all-or-nothing primary-tree compile. -/
theorem compileExtensions_incremental_merge
    (compile : String → Except String FunctionProto) (extType : String)
    (s : compiledStateList) (xs ys : ExtRows) (reg₁ reg₂ : ProtoMap)
    (e : String)
    (h₁ : compileExtList compile extType xs s.List = (none, reg₁))
    (h₂ : compileExtList compile extType ys reg₁ = (some e, reg₂)) :
    compiledStateList.CompileExtensions compile extType (.ok (xs ++ ys)) s =
      (some e, { s with List := reg₂ })
    ∧ ∀ k, (mapGet reg₁ k).isSome → (mapGet reg₂ k).isSome := by
  constructor
  · have hap := compileExtList_append compile extType xs ys s.List reg₁ h₁
    simp [compiledStateList.CompileExtensions, hap, h₂]
  · intro k hk
    have hmono := compileExtList_mono compile extType ys reg₁ k hk
    rw [h₂] at hmono
    exact hmono

/-- Witness for C10: extension 1 compiles, extension 2 fails, the call
errors yet extension 1's virtual path stays registered. -/
theorem compileExtensions_incremental_merge_witness :
    compiledStateList.CompileExtensions
      (fun p => if p == "extensions/2/pages/b.lua"
        then (.error "boom" : Except String FunctionProto) else .ok ⟨1⟩)
      "pages"
      (.ok ([.ok ⟨"1", [⟨"extensions/1/pages/a.lua", "a.lua", false, none⟩]⟩] ++
        [.ok ⟨"2", [⟨"extensions/2/pages/b.lua", "b.lua", false, none⟩]⟩]))
      ⟨[], "page"⟩ =
      (some "boom", ⟨[("pages/a.lua", ⟨1⟩)], "page"⟩)
    ∧ (mapGet [("pages/a.lua", (⟨1⟩ : FunctionProto))] "pages/a.lua").isSome = true := by
  have T := compileExtensions_incremental_merge
    (fun p => if p == "extensions/2/pages/b.lua"
      then (.error "boom" : Except String FunctionProto) else .ok ⟨1⟩)
    "pages" ⟨[], "page"⟩
    [.ok ⟨"1", [⟨"extensions/1/pages/a.lua", "a.lua", false, none⟩]⟩]
    [.ok ⟨"2", [⟨"extensions/2/pages/b.lua", "b.lua", false, none⟩]⟩]
    [("pages/a.lua", ⟨1⟩)] [("pages/a.lua", ⟨1⟩)] "boom"
    (by decide) (by decide)
  exact ⟨T.1, by simpa using T.2 "pages/a.lua" (by decide)⟩

/-- C5: during extension resolution, a widget-script load failure is
non-fatal — the call finishes without error, the failing widget's
identifier is dropped from the active widget list while every other widget
stays, and entries loaded from other scripts stay in the pool map — whereas
a page-script load failure aborts the call with an error carrying the
owning extension id. -/
theorem loadExtensions_widget_nonfatal_page_fatal
    (env₁ env₂ : FsEnv) (id₁ id₂ f₁ f₂ g₁ e₁ e₂ : String)
    (l₀ l₀' : PoolMap) (ws : List String)
    (h1 : env₁.stat ("extensions/" ++ id₁ ++ "/" ++ "widgets") = none)
    (h2 : env₁.getLuaFiles ("extensions/" ++ id₁ ++ "/" ++ "widgets") =
      .ok [f₁, f₂])
    (h3 : env₁.doFile f₁ = some e₁)
    (h4 : env₁.doFile f₂ = none)
    (h5 : env₂.stat ("extensions/" ++ id₂ ++ "/" ++ "pages") = none)
    (h6 : env₂.getLuaFiles ("extensions/" ++ id₂ ++ "/" ++ "pages") = .ok [g₁])
    (h7 : env₂.doFile g₁ = some e₂) :
    (stateList.LoadExtensions env₁ (.ok [.ok id₁]) ws ⟨l₀, "widget"⟩).err = none
    ∧ goTrimSuffix (goFileName f₁) ".lua" ∉
        (stateList.LoadExtensions env₁ (.ok [.ok id₁]) ws ⟨l₀, "widget"⟩).widgets
    ∧ (∀ w ∈ ws, w ≠ goTrimSuffix (goFileName f₁) ".lua" →
        w ∈ (stateList.LoadExtensions env₁ (.ok [.ok id₁]) ws ⟨l₀, "widget"⟩).widgets)
    ∧ mapGet (stateList.LoadExtensions env₁ (.ok [.ok id₁]) ws ⟨l₀, "widget"⟩).list
        (goToLower (goReplace f₂ ("extensions/" ++ id₁ ++ "/" ++ "widgets") "widgets"))
        = some [⟨1, false⟩]
    ∧ (stateList.LoadExtensions env₂ (.ok [.ok id₂]) ws ⟨l₀', "page"⟩).err =
        some ("extension: " ++ id₂ ++ " " ++ e₂) := by
  have hws : ("widget" : String) ++ "s" = "widgets" := by decide
  have hps : ("page" : String) ++ "s" = "pages" := by decide
  have hpw : (("pages" : String) == "widgets") = false := by decide
  have hout1 : stateList.LoadExtensions env₁ (.ok [.ok id₁]) ws ⟨l₀, "widget"⟩ =
      { err := none,
        list := [(goToLower
          (goReplace f₂ ("extensions/" ++ id₁ ++ "/" ++ "widgets") "widgets"),
          [⟨1, false⟩])],
        widgets := UnloadExtensionWidget ws (goTrimSuffix (goFileName f₁) ".lua"),
        logs := ["Cannot load widgets in extension: " ++ id₁ ++ " " ++ e₁] } := by
    simp [stateList.LoadExtensions, hws, loadExtRows, h1, h2, loadSubtopics,
      h3, h4, mapSet, mapGet]
  have hout2 : (stateList.LoadExtensions env₂ (.ok [.ok id₂]) ws ⟨l₀', "page"⟩).err =
      some ("extension: " ++ id₂ ++ " " ++ e₂) := by
    simp [stateList.LoadExtensions, hps, loadExtRows, h5, h6, loadSubtopics,
      h7, hpw]
  refine ⟨by simp [hout1], ?_, ?_, by simp [hout1, mapGet], hout2⟩
  · rw [hout1]
    simp [UnloadExtensionWidget, List.mem_filter]
  · intro w hw hne
    rw [hout1]
    simp only [UnloadExtensionWidget]
    exact List.mem_filter.mpr ⟨hw, by simpa [bne_iff_ne] using hne⟩

/-- Witness for C5 on concrete environments: the failing widget is
unloaded without error, the surviving script is pooled, and the failing
page aborts with the extension id in the error. -/
theorem loadExtensions_widget_nonfatal_page_fatal_witness :
    (stateList.LoadExtensions wEnvWidget (.ok [.ok "news"]) ["latest", "poll"]
      ⟨[], "widget"⟩).err = none
    ∧ goTrimSuffix (goFileName "extensions/news/widgets/latest.lua") ".lua" ∉
        (stateList.LoadExtensions wEnvWidget (.ok [.ok "news"]) ["latest", "poll"]
          ⟨[], "widget"⟩).widgets
    ∧ mapGet (stateList.LoadExtensions wEnvWidget (.ok [.ok "news"])
          ["latest", "poll"] ⟨[], "widget"⟩).list
        (goToLower (goReplace "extensions/news/widgets/poll.lua"
          ("extensions/" ++ "news" ++ "/" ++ "widgets") "widgets"))
        = some [⟨1, false⟩]
    ∧ (stateList.LoadExtensions wEnvPage (.ok [.ok "shop"]) ["latest", "poll"]
        ⟨[], "page"⟩).err = some ("extension: " ++ "shop" ++ " " ++ "boom") := by
  have T := loadExtensions_widget_nonfatal_page_fatal wEnvWidget wEnvPage
    "news" "shop" "extensions/news/widgets/latest.lua"
    "extensions/news/widgets/poll.lua" "extensions/shop/pages/buy.lua"
    "nil index" "boom" [] [] ["latest", "poll"]
    rfl rfl (by decide) (by decide) rfl rfl rfl
  exact ⟨T.1, T.2.1, T.2.2.2.1, T.2.2.2.2⟩

/-- C6: an enabled extension whose override directory is absent is logged
and skipped without failing the resolution, and entries already loaded for
an earlier extension in the same resolution stay registered. -/
theorem loadExtensions_missing_dir_logged_and_skipped
    (env : FsEnv) (sType idA idB fA : String) (l₀ : PoolMap) (ws : List String)
    (hA1 : env.stat ("extensions/" ++ idA ++ "/" ++ (sType ++ "s")) = none)
    (hA2 : env.getLuaFiles ("extensions/" ++ idA ++ "/" ++ (sType ++ "s")) =
      .ok [fA])
    (hA3 : env.doFile fA = none)
    (hB : env.stat ("extensions/" ++ idB ++ "/" ++ (sType ++ "s")) =
      some .notExist) :
    (stateList.LoadExtensions env (.ok [.ok idA, .ok idB]) ws ⟨l₀, sType⟩).err = none
    ∧ ("Missing " ++ (sType ++ "s") ++ " directory in extension " ++ idB) ∈
        (stateList.LoadExtensions env (.ok [.ok idA, .ok idB]) ws ⟨l₀, sType⟩).logs
    ∧ mapGet (stateList.LoadExtensions env (.ok [.ok idA, .ok idB]) ws
          ⟨l₀, sType⟩).list
        (goToLower (goReplace fA ("extensions/" ++ idA ++ "/" ++ (sType ++ "s"))
          (sType ++ "s")))
        = some [⟨0, false⟩] := by
  have hout : stateList.LoadExtensions env (.ok [.ok idA, .ok idB]) ws ⟨l₀, sType⟩ =
      { err := none,
        list := [(goToLower (goReplace fA
          ("extensions/" ++ idA ++ "/" ++ (sType ++ "s")) (sType ++ "s")),
          [⟨0, false⟩])],
        widgets := ws,
        logs := ["Missing " ++ (sType ++ "s") ++ " directory in extension " ++ idB] } := by
    simp [stateList.LoadExtensions, loadExtRows, hA1, hA2, loadSubtopics,
      hA3, hB, StatErr.isNotExist, mapSet, mapGet]
  refine ⟨by simp [hout], by simp [hout], by simp [hout, mapGet]⟩

/-- Witness for C6 on a concrete environment with extension `blog` loaded
and extension `forum` missing its pages directory. -/
theorem loadExtensions_missing_dir_logged_and_skipped_witness :
    (stateList.LoadExtensions wEnvMissing (.ok [.ok "blog", .ok "forum"]) []
      ⟨[], "page"⟩).err = none
    ∧ ("Missing " ++ ("page" ++ "s") ++ " directory in extension " ++ "forum") ∈
        (stateList.LoadExtensions wEnvMissing (.ok [.ok "blog", .ok "forum"]) []
          ⟨[], "page"⟩).logs
    ∧ mapGet (stateList.LoadExtensions wEnvMissing (.ok [.ok "blog", .ok "forum"])
          [] ⟨[], "page"⟩).list
        (goToLower (goReplace "extensions/blog/pages/list.lua"
          ("extensions/" ++ "blog" ++ "/" ++ ("page" ++ "s")) ("page" ++ "s")))
        = some [⟨0, false⟩] := by
  exact loadExtensions_missing_dir_logged_and_skipped wEnvMissing "page"
    "blog" "forum" "extensions/blog/pages/list.lua" [] []
    (by decide) rfl rfl (by decide)

/-- Counterexample to C7 as stated: even with every lookup failing, a
boolean bind argument yields a handle whose backing entity reference is
nil, because neither type branch runs, `err` stays nil, and
`createPlayerMetaTable` is reached with the initial nil pointer. -/
theorem playerConstructor_nil_backing_counterexample :
    PlayerConstructor (fun _ => .error "sql: no rows in result set")
      (fun _ => .error "sql: no rows in result set") (.bool true) =
      .handle none := rfl

/-- C7 amended: for numeric or string bind arguments whose lookup fails —
whether not-found or any other data-layer failure, which the constructor
does not distinguish — `PlayerConstructor` pushes nil and never a handle;
successful lookups yield a handle with the loaded entity; an argument of
any other Lua type yields a handle whose backing reference is nil. -/
theorem playerConstructor_lookup_failure_returns_nil
    (byId : Int → Except String Player)
    (byName : String → Except String Player) :
    (∀ n e, byId n = .error e → PlayerConstructor byId byName (.num n) = .nil)
    ∧ (∀ s e, byName s = .error e → PlayerConstructor byId byName (.str s) = .nil)
    ∧ (∀ n p, byId n = .ok p →
        PlayerConstructor byId byName (.num n) = .handle (some p))
    ∧ (∀ s p, byName s = .ok p →
        PlayerConstructor byId byName (.str s) = .handle (some p))
    ∧ (∀ b, PlayerConstructor byId byName (.bool b) = .handle none)
    ∧ PlayerConstructor byId byName .nil = .handle none
    ∧ PlayerConstructor byId byName .table = .handle none := by
  refine ⟨fun n e h => ?_, fun s e h => ?_, fun n p h => ?_, fun s p h => ?_,
    fun b => rfl, rfl, rfl⟩
  · simp [PlayerConstructor, playerTableConstructor, h]
  · simp [PlayerConstructor, playerTableConstructor, h]
  · simp [PlayerConstructor, playerTableConstructor, createPlayerMetaTable, h]
  · simp [PlayerConstructor, playerTableConstructor, createPlayerMetaTable, h]

/-- Witness for the amended C7: binding the name `alice` when no such
entity exists returns nil rather than a handle. -/
theorem playerConstructor_lookup_failure_returns_nil_witness :
    PlayerConstructor (fun _ => (.error "not found" : Except String Player))
      (fun _ => .error "not found") (.str "alice") = .nil := by
  exact (playerConstructor_lookup_failure_returns_nil
    (fun _ => .error "not found") (fun _ => .error "not found")).2.1
    "alice" "not found" rfl

/-- C8: a custom-field access naming a column outside the live catalog is a
silent no-op — the set issues no UPDATE and raises nothing, the get issues
no column SELECT, raises nothing and pushes nil — and whatever the field
argument, any column interpolated into an UPDATE or SELECT is the
HTML-escape of a catalog column. -/
theorem customField_unknown_column_is_noop
    (cols : List String) (execRes : Except String Unit)
    (refetch : Except String Player) (getRes : Except String String)
    (player : Player) (fieldName : String) (fieldValue : LuaV)
    (hnot : fieldName ∉ cols) :
    SetPlayerCustomField (.ok cols) execRes refetch player fieldName fieldValue =
      { calls := [.selectColumns], argError := none, raised := none, pushed := [] }
    ∧ GetPlayerCustomField (.ok cols) getRes player fieldName =
      { calls := [.selectColumns], argError := none, raised := none,
        pushed := [.nil] }
    ∧ (∀ f c v pid, HostCall.execUpdate c v pid ∈
        (SetPlayerCustomField (.ok cols) execRes refetch player f fieldValue).calls →
        ∃ g ∈ cols, c = htmlEscapeString g)
    ∧ (∀ f c pid, HostCall.selectField c pid ∈
        (GetPlayerCustomField (.ok cols) getRes player f).calls →
        ∃ g ∈ cols, c = htmlEscapeString g) := by
  have hfind : cols.find? (fun c => c == fieldName) = none := by
    rw [List.find?_eq_none]
    intro x hx
    simp only [beq_iff_eq]
    intro hxf
    exact hnot (hxf ▸ hx)
  refine ⟨?_, ?_, ?_, ?_⟩
  · simp [SetPlayerCustomField, hfind]
  · simp [GetPlayerCustomField, hfind]
  · intro f c v pid hmem
    cases hf : cols.find? (fun x => x == f) with
    | none => simp [SetPlayerCustomField, hf] at hmem
    | some g =>
      have hgf : g = f := by simpa using List.find?_some hf
      have hgmem : g ∈ cols := List.mem_of_find?_eq_some hf
      cases execRes with
      | error e =>
        simp [SetPlayerCustomField, hf] at hmem
        exact ⟨f, hgf ▸ hgmem, hmem.1⟩
      | ok u =>
        cases refetch with
        | error e =>
          simp [SetPlayerCustomField, hf] at hmem
          exact ⟨f, hgf ▸ hgmem, hmem.1⟩
        | ok q =>
          simp [SetPlayerCustomField, hf] at hmem
          exact ⟨f, hgf ▸ hgmem, hmem.1⟩
  · intro f c pid hmem
    cases hf : cols.find? (fun x => x == f) with
    | none => simp [GetPlayerCustomField, hf] at hmem
    | some g =>
      have hgf : g = f := by simpa using List.find?_some hf
      have hgmem : g ∈ cols := List.mem_of_find?_eq_some hf
      cases getRes with
      | error e =>
        simp [GetPlayerCustomField, hf] at hmem
        exact ⟨f, hgf ▸ hgmem, hmem.1⟩
      | ok u =>
        simp [GetPlayerCustomField, hf] at hmem
        exact ⟨f, hgf ▸ hgmem, hmem.1⟩

/-- Witness for C8: writing and reading `unknown_column` against a catalog
holding only `name` and `level`. -/
theorem customField_unknown_column_is_noop_witness :
    SetPlayerCustomField (.ok ["name", "level"]) (.ok ()) (.ok ⟨9⟩) ⟨9⟩
      "unknown_column" (.num 5) =
      { calls := [.selectColumns], argError := none, raised := none, pushed := [] }
    ∧ GetPlayerCustomField (.ok ["name", "level"]) (.ok "x") ⟨9⟩
      "unknown_column" =
      { calls := [.selectColumns], argError := none, raised := none,
        pushed := [.nil] } := by
  have T := customField_unknown_column_is_noop ["name", "level"] (.ok ())
    (.ok ⟨9⟩) (.ok "x") ⟨9⟩ "unknown_column" (.num 5) (by decide)
  exact ⟨T.1, T.2.1⟩

/-- Counterexample to C9 as stated: `SetPlayerBankBalance` takes an
argument but performs no type check — invoked with a boolean balance it
raises no failure of any kind and proceeds to write the coerced value 0. -/
theorem setPlayerBankBalance_no_validation_counterexample :
    SetPlayerBankBalance (.bool true) (fun _ => .ok ()) =
      { calls := [.setBalance 0], argError := none, raised := none,
        pushed := [] } := rfl

/-- C9 amended: the storage-value accessors validate their arguments
explicitly before use and raise a message-carrying argument error on
mismatch without touching the entity, but `SetPlayerBankBalance` checks
nothing: it coerces its argument with `ToInt` (0 for non-convertible
values) and proceeds with the write. -/
theorem boundMethod_argument_validation
    (key val v : LuaV) (setStor : Int → Int → Except String Unit)
    (getStor : Int → Except String Storage)
    (setBal : Int → Except String Unit) :
    (key.isNumber = false →
      SetPlayerStorageValue key val setStor =
        { calls := [], argError := some (1, "Invalid key type. Expected number"),
          raised := none, pushed := [] })
    ∧ (key.isNumber = true → val.isNumber = false →
      SetPlayerStorageValue key val setStor =
        { calls := [], argError := some (1, "Invalid value type. Expected number"),
          raised := none, pushed := [] })
    ∧ (key.isNumber = false →
      GetPlayerStorageValue key getStor =
        { calls := [], argError := some (1, "Invalid key type. Expected number"),
          raised := none, pushed := [] })
    ∧ (setBal v.toInt = .ok () →
      SetPlayerBankBalance v setBal =
        { calls := [.setBalance v.toInt], argError := none, raised := none,
          pushed := [] }) := by
  refine ⟨fun hk => ?_, fun hk hv => ?_, fun hk => ?_, fun hb => ?_⟩
  · simp [SetPlayerStorageValue, hk]
  · simp [SetPlayerStorageValue, hk, hv]
  · simp [GetPlayerStorageValue, hk]
  · simp [SetPlayerBankBalance, hb]

/-- Witness for the amended C9: a string storage key is rejected with the
argument error, while a boolean bank balance is written as 0. -/
theorem boundMethod_argument_validation_witness :
    SetPlayerStorageValue (.str "quest") (.num 1) (fun _ _ => .ok ()) =
      { calls := [], argError := some (1, "Invalid key type. Expected number"),
        raised := none, pushed := [] }
    ∧ SetPlayerBankBalance (.bool true) (fun _ => .ok ()) =
      { calls := [.setBalance 0], argError := none, raised := none,
        pushed := [] } := by
  have T := boundMethod_argument_validation (.str "quest") (.num 1) (.bool true)
    (fun _ _ => .ok ()) (fun _ => .ok ⟨0, 0⟩) (fun _ => .ok ())
  exact ⟨T.1 rfl, by simpa [LuaV.toInt] using T.2.2.2 rfl⟩
